import Mathlib

/-!
Shallow embedding of the two ink! contracts of this repository:
`src/wasm/psp22/lib.rs` (the fungible token `Token`) and
`src/wasm/resource_market/lib.rs` (the `ResourceMarket` pool).

Modelling conventions:
* `AccountId` is an opaque comparable identifier, embedded as `Nat`.
* `ink::storage::Mapping` is embedded as an association list with
  `mget` (Mapping::get), `minsert` (Mapping::insert, overwrite) and
  `mcontains` (Mapping::contains).
* `u128`/`u64` values are embedded as `Nat`; `saturating_add` clamps at
  the width's maximum, `saturating_sub` on `Nat` is exactly Rust's
  saturating subtraction.  Plain `+` / `-` on the machine integers are
  checked (ink! contract builds enforce overflow checks, and `cargo test`
  runs with debug assertions): they trap on overflow/underflow, embedded
  as `none`.
* A panic / trap aborts and reverts the whole call; a trapped call is
  embedded as `none`.  A call that returns (with `Ok` or a business
  error `Err`) is `some (result, post-state, emitted events)`; the code
  mutates `&mut self` in place, so the post-state is carried explicitly
  also on the `Err` paths.
-/

set_option autoImplicit false

namespace ContractWorkshop

/-- Association-list map: `Mapping::get`. -/
def mget {κ ν : Type} [DecidableEq κ] : List (κ × ν) → κ → Option ν
  | [], _ => none
  | (k, v) :: rest, q => if q = k then some v else mget rest q

/-- Association-list map: `Mapping::insert` (overwrites an existing entry). -/
def minsert {κ ν : Type} [DecidableEq κ] : List (κ × ν) → κ → ν → List (κ × ν)
  | [], q, w => [(q, w)]
  | (k, v) :: rest, q, w =>
      if q = k then (q, w) :: rest else (k, v) :: minsert rest q w

/-- Association-list map: `Mapping::contains`. -/
def mcontains {κ ν : Type} [DecidableEq κ] (m : List (κ × ν)) (k : κ) : Bool :=
  (mget m k).isSome

/-- Maximum value of Rust's `u128` (the ink! `Balance` type). -/
def u128max : Nat := 2 ^ 128 - 1

/-- Maximum value of Rust's `u64`. -/
def u64max : Nat := 2 ^ 64 - 1

/-- Rust `u128::saturating_add`. -/
def satAdd128 (a b : Nat) : Nat := min (a + b) u128max

/-- Rust `u64::saturating_add`. -/
def satAdd64 (a b : Nat) : Nat := min (a + b) u64max

/-- Rust saturating subtraction; on `Nat` truncated subtraction is exactly it. -/
def satSub (a b : Nat) : Nat := a - b

/-- Rust checked `u64` addition: plain `+` under overflow checks, `none` = trap. -/
def checkedAdd64 (a b : Nat) : Option Nat :=
  if a + b ≤ u64max then some (a + b) else none

/-- Rust checked subtraction: plain `-` under overflow checks, `none` = trap. -/
def checkedSub (a b : Nat) : Option Nat :=
  if b ≤ a then some (a - b) else none

/-! ## PSP22 token (`src/wasm/psp22/lib.rs`) -/

/-- The PSP22 error variants this contract produces. -/
inductive PSP22Error : Type
  | InsufficientBalance
  | InsufficientAllowance
  deriving DecidableEq, Repr

/-- Events of the token contract. -/
inductive PSP22Event : Type
  | Transfer (fro dst value : Nat)
  | Approval (owner spender amount : Nat)
  deriving DecidableEq, Repr

/-- `#[ink(storage)] struct Token`. -/
structure Token : Type where
  total_supply : Nat
  balances : List (Nat × Nat)
  allowances : List ((Nat × Nat) × Nat)
  deriving DecidableEq, Repr

namespace Token

/-- `Token::new(total_supply)`: both mappings start empty (`Default`). -/
def new (total_supply : Nat) : Token :=
  { total_supply := total_supply, balances := [], allowances := [] }

/-- `Token::total_supply`. -/
def totalSupply (t : Token) : Nat := t.total_supply

/-- `Token::balance_of`: `self.balances.get(owner).expect("no owner found")`;
the `expect` on a missing entry panics, embedded as `none`. -/
def balance_of (t : Token) (owner : Nat) : Option Nat :=
  mget t.balances owner

/-- `Token::allowance`: `expect("no pair owner <-> spender found")` on a
missing entry panics, embedded as `none`. -/
def allowance (t : Token) (owner spender : Nat) : Option Nat :=
  mget t.allowances (owner, spender)

/-- `Token::approve`: unconditionally overwrites the allowance entry and
returns `Ok` with no event. -/
def approve (t : Token) (caller spender amount : Nat) :
    Except PSP22Error Unit × Token × List PSP22Event :=
  (Except.ok (), { t with allowances := minsert t.allowances (caller, spender) amount }, [])

/-- `Token::transfer(to, value, data)` with the caller made explicit
(`to` is rendered `dst`).
Mirrors the source line by line: reads the caller's balance with `expect`
(trap if absent), returns `InsufficientBalance` if it is `< value`,
otherwise writes `caller ↦ caller_balance.saturating_sub(value)` and
`dst ↦ value` (the source inserts the bare `value`, not `dst`'s old balance
plus `value`), then emits `Transfer { from: caller, dst, value }`. -/
def transfer (t : Token) (caller dst value : Nat) :
    Option (Except PSP22Error Unit × Token × List PSP22Event) :=
  match mget t.balances caller with
  | none => none
  | some caller_balance =>
      if caller_balance < value then
        some (Except.error PSP22Error.InsufficientBalance, t, [])
      else
        let b1 := minsert t.balances caller (satSub caller_balance value)
        let b2 := minsert b1 dst value
        some (Except.ok (), { t with balances := b2 },
          [PSP22Event.Transfer caller dst value])

/-- `Token::transfer_from(from, to, value, data)` with the caller explicit
(`from`/`to` are rendered `fro`/`dst`).
Mirrors the source: `panic!("NOT AUTHORIZED")` (trap) when the allowance
entry `(from, caller)` is absent; `InsufficientAllowance` when it is
`< value`; reads `from`'s balance with `expect` (trap if absent);
`InsufficientBalance` when it is `< value`; otherwise writes the reduced
allowance, `from ↦ balance.saturating_sub(value)` and
`dst ↦ balance.saturating_add(value)` (the source adds onto `from`'s old
balance, not `dst`'s), and emits `Approval { owner: from, spender: caller,
amount: value }`. -/
def transfer_from (t : Token) (caller fro dst value : Nat) :
    Option (Except PSP22Error Unit × Token × List PSP22Event) :=
  if mcontains t.allowances (fro, caller) then
    match mget t.allowances (fro, caller) with
    | none => none
    | some allowanceVal =>
        if allowanceVal < value then
          some (Except.error PSP22Error.InsufficientAllowance, t, [])
        else
          match mget t.balances fro with
          | none => none
          | some balance =>
              if balance < value then
                some (Except.error PSP22Error.InsufficientBalance, t, [])
              else
                let al := minsert t.allowances (fro, caller) (satSub allowanceVal value)
                let b1 := minsert t.balances fro (satSub balance value)
                let b2 := minsert b1 dst (satAdd128 balance value)
                some (Except.ok (), { t with balances := b2, allowances := al },
                  [PSP22Event.Approval fro caller value])
  else
    none

end Token

/-! ## Resource market (`src/wasm/resource_market/lib.rs`) -/

/-- `enum Resource { Food, Water, Wood }`. -/
inductive Resource : Type
  | Food
  | Water
  | Wood
  deriving DecidableEq, Repr

/-- `enum Error` of the resource market. -/
inductive MarketError : Type
  | InsufficientCredits
  | InsufficientResources
  deriving DecidableEq, Repr

/-- Events of the resource market; both event structs carry
`(sender, amount, resource, total_resource_available, total_credits_available)`. -/
inductive MarketEvent : Type
  | ContributionReceived (sender amount : Nat) (resource : Resource)
      (total_resource_available total_credits_available : Nat)
  | ResourceWithdrawn (sender amount : Nat) (resource : Resource)
      (total_resource_available total_credits_available : Nat)
  deriving DecidableEq, Repr

/-- `#[ink(storage)] struct ResourceMarket`. -/
structure ResourceMarket : Type where
  food : Nat
  water : Nat
  wood : Nat
  credits : List (Nat × Nat)
  deriving DecidableEq, Repr

namespace ResourceMarket

/-- `ResourceMarket::new(food, water, wood)`: credits map starts empty. -/
def new (food water wood : Nat) : ResourceMarket :=
  { food := food, water := water, wood := wood, credits := [] }

/-- The pool counter selected by a `Resource` (the `match resource` reads). -/
def level (m : ResourceMarket) (r : Resource) : Nat :=
  match r with
  | Resource.Food => m.food
  | Resource.Water => m.water
  | Resource.Wood => m.wood

/-- Overwrite the pool counter selected by a `Resource`. -/
def setLevel (m : ResourceMarket) (r : Resource) (v : Nat) : ResourceMarket :=
  match r with
  | Resource.Food => { m with food := v }
  | Resource.Water => { m with water := v }
  | Resource.Wood => { m with wood := v }

/-- `ResourceMarket::get_resource(resource)`: total pattern match, always `Ok`. -/
def get_resource (m : ResourceMarket) (r : Resource) : Except MarketError Nat :=
  Except.ok (level m r)

/-- `ResourceMarket::contribute(amount, resource)` with the caller explicit.
Mirrors the source: the pool counter is bumped with plain `+=` (checked, a
trap on `u64` overflow, embedded as `none`); the caller's credit defaults to
zero, is bumped with `saturating_add` and written back; the event carries the
pool level re-read after the update and `old_balance.saturating_add(amount)`;
the function then returns `Ok(())`. -/
def contribute (m : ResourceMarket) (caller amount : Nat) (r : Resource) :
    Option (Except MarketError Unit × ResourceMarket × List MarketEvent) :=
  match checkedAdd64 (level m r) amount with
  | none => none
  | some lvl =>
      let m1 := setLevel m r lvl
      let old_balance := (mget m1.credits caller).getD 0
      let m2 := { m1 with credits := minsert m1.credits caller (satAdd64 old_balance amount) }
      let total_resources := level m2 r
      let sender_available_credits := satAdd64 old_balance amount
      some (Except.ok (), m2,
        [MarketEvent.ContributionReceived caller amount r total_resources
          sender_available_credits])

/-- `ResourceMarket::withdraw(amount, resource)` with the caller explicit.
All three `match resource` arms of the source are identical up to which pool
counter they touch, abstracted here through `level`/`setLevel`.  Mirrors the
source: `InsufficientResources` when the pool counter `< amount`, then
`InsufficientCredits` when the caller's credit (default zero) `< amount`;
otherwise the pool counter becomes `level.saturating_sub(amount)` and the
credit `caller_credits.saturating_sub(amount)`, and the event carries
`self.<counter> - amount` — the counter re-read AFTER the update, minus
`amount` again, a checked subtraction that traps when it underflows — and
`caller_credits - amount` (old credit, checked but guarded). -/
def withdraw (m : ResourceMarket) (caller amount : Nat) (r : Resource) :
    Option (Except MarketError Unit × ResourceMarket × List MarketEvent) :=
  if level m r < amount then
    some (Except.error MarketError.InsufficientResources, m, [])
  else
    let caller_credits := (mget m.credits caller).getD 0
    if caller_credits < amount then
      some (Except.error MarketError.InsufficientCredits, m, [])
    else
      let m1 := setLevel m r (satSub (level m r) amount)
      let m2 := { m1 with credits := minsert m1.credits caller (satSub caller_credits amount) }
      match checkedSub (level m2 r) amount, checkedSub caller_credits amount with
      | some tra, some tca =>
          some (Except.ok (), m2,
            [MarketEvent.ResourceWithdrawn caller amount r tra tca])
      | _, _ => none

end ResourceMarket

/-- The token states reachable from `Token::new(supply)` through successful
(`Ok`-returning) `transfer` and `transfer_from` calls, over all callers and
arguments. -/
inductive ReachToken (supply : Nat) : Token → Prop
  | init : ReachToken supply (Token.new supply)
  | step_transfer {t t2 : Token} {c d v : Nat} {es : List PSP22Event} :
      ReachToken supply t →
      Token.transfer t c d v = some (Except.ok (), t2, es) →
      ReachToken supply t2
  | step_transfer_from {t t2 : Token} {c f d v : Nat} {es : List PSP22Event} :
      ReachToken supply t →
      Token.transfer_from t c f d v = some (Except.ok (), t2, es) →
      ReachToken supply t2

/-- Sum of all stored balance entries of the token. -/
def sumBalances (t : Token) : Nat := (t.balances.map Prod.snd).sum

/-! ## Map lemmas -/

theorem mget_minsert_self {κ ν : Type} [DecidableEq κ]
    (m : List (κ × ν)) (k : κ) (v : ν) : mget (minsert m k v) k = some v := by
  induction m with
  | nil => simp [minsert, mget]
  | cons p rest ih =>
      obtain ⟨a, b⟩ := p
      by_cases h : k = a
      · simp [minsert, mget, h]
      · simp [minsert, mget, h, ih]

theorem mget_minsert_ne {κ ν : Type} [DecidableEq κ]
    (m : List (κ × ν)) (k q : κ) (v : ν) (h : q ≠ k) :
    mget (minsert m k v) q = mget m q := by
  induction m with
  | nil => simp [minsert, mget, h]
  | cons p rest ih =>
      obtain ⟨a, b⟩ := p
      by_cases hk : k = a
      · subst hk
        simp [minsert, mget, h]
      · by_cases hq : q = a
        · simp [minsert, mget, hk, hq]
        · simp [minsert, mget, hk, hq, ih]

/-! ## Claims -/

/-- Claim C1. The claim says a transfer by a caller with sufficient balance
credits `to` with its previous balance plus `value`.  The source
(`src/wasm/psp22/lib.rs` line 167) instead writes the bare `value` over the
recipient's balance: here the recipient holds 5, the caller 10, and after
`transfer(to := 2, value := 3)` the recipient holds 3, not 5 + 3 = 8 (the
debit and the `Transfer` event are as claimed). -/
theorem C1_transfer_overwrites_recipient :
    Token.transfer
        { total_supply := 100, balances := [(1, 10), (2, 5)], allowances := [] } 1 2 3
      = some (Except.ok (),
          { total_supply := 100, balances := [(1, 7), (2, 3)], allowances := [] },
          [PSP22Event.Transfer 1 2 3])
    ∧ (3 : Nat) ≠ 5 + 3 := by
  exact ⟨rfl, by decide⟩

/-- Claim C2. The claim says a successful `transfer_from` increases `to`'s
balance by exactly `value` and emits an `Approval` whose amount is the new
reduced allowance.  The source (`src/wasm/psp22/lib.rs` lines 201 and 205)
instead writes `from`'s old balance plus `value` over `to`'s balance and puts
the transferred `value` in the event: here `from` holds 10, `to` holds 0,
the allowance is 5, and `transfer_from(from := 1, to := 2, value := 3)`
leaves `to` with 13 (not 0 + 3) and emits `Approval` with amount 3 (not the
reduced allowance 2); the `from` debit and allowance debit are as claimed. -/
theorem C2_transfer_from_miscredits_recipient :
    Token.transfer_from
        { total_supply := 100, balances := [(1, 10), (2, 0)],
          allowances := [((1, 3), 5)] } 3 1 2 3
      = some (Except.ok (),
          { total_supply := 100, balances := [(1, 7), (2, 13)],
            allowances := [((1, 3), 2)] },
          [PSP22Event.Approval 1 3 3])
    ∧ (13 : Nat) ≠ 0 + 3 ∧ (3 : Nat) ≠ 5 - 3 := by
  exact ⟨rfl, by decide, by decide⟩

/-- Claim C6. The claim says `withdraw` succeeds and debits pool and credit
whenever the pool stock and the caller's credit both cover `amount`.  In the
source (`src/wasm/resource_market/lib.rs`, e.g. line 174) the emitted event
computes `self.water - amount` after `self.water` was already decremented,
so whenever `level - amount < amount` that subtraction underflows and the
call traps: with pool 10, credit 10 and `amount = 7` both guards pass, yet
the call aborts instead of succeeding with pool 3 and credit 3. -/
theorem C6_withdraw_traps_on_event_underflow :
    (7 : Nat) ≤ ResourceMarket.level
        { food := 10, water := 10, wood := 10, credits := [(1, 10)] } Resource.Water
    ∧ (7 : Nat) ≤ (mget
        ({ food := 10, water := 10, wood := 10, credits := [(1, 10)] }
          : ResourceMarket).credits 1).getD 0
    ∧ ResourceMarket.withdraw
        { food := 10, water := 10, wood := 10, credits := [(1, 10)] } 1 7 Resource.Water
      = none := by
  exact ⟨by decide, by decide, rfl⟩

/-- Claim C8. The claim says a successful `withdraw` emits `ResourceWithdrawn`
whose `total_resource_available` is the new (post-withdrawal) pool level.  The
source (`src/wasm/resource_market/lib.rs` line 174) computes it as the already
decremented counter minus `amount` a second time, contradicting the field's
own doc comment: withdrawing 50 Water from pool 100 with credit 100 leaves the
pool at 50 but the event reports 0 (`total_credits_available` is correct). -/
theorem C8_withdraw_event_understates_pool :
    ResourceMarket.withdraw
        { food := 100, water := 100, wood := 100, credits := [(2, 100)] } 2 50 Resource.Water
      = some (Except.ok (),
          { food := 100, water := 50, wood := 100, credits := [(2, 50)] },
          [MarketEvent.ResourceWithdrawn 2 50 Resource.Water 0 50])
    ∧ (0 : Nat) ≠ 50 := by
  exact ⟨rfl, by decide⟩

/-- Claim C3. Every business-error path of `transfer`, `transfer_from` and
`withdraw` performs no map mutation and emits no event: whenever the call
returns an `Err`, the post-state equals the pre-state and the event list is
empty. -/
theorem C3_error_paths_preserve_state :
    (∀ (t : Token) (c d v : Nat) (e : PSP22Error) (t2 : Token) (es : List PSP22Event),
        Token.transfer t c d v = some (Except.error e, t2, es) → t2 = t ∧ es = [])
    ∧ (∀ (t : Token) (c f d v : Nat) (e : PSP22Error) (t2 : Token) (es : List PSP22Event),
        Token.transfer_from t c f d v = some (Except.error e, t2, es) → t2 = t ∧ es = [])
    ∧ (∀ (m : ResourceMarket) (c a : Nat) (r : Resource) (e : MarketError)
        (m2 : ResourceMarket) (es : List MarketEvent),
        ResourceMarket.withdraw m c a r = some (Except.error e, m2, es) → m2 = m ∧ es = []) := by
  refine ⟨?_, ?_, ?_⟩
  · intro t c d v e t2 es h
    simp only [Token.transfer] at h
    split at h
    · exact Option.noConfusion h
    · split at h
      · simp only [Option.some.injEq, Prod.mk.injEq] at h
        exact ⟨h.2.1.symm, h.2.2.symm⟩
      · simp at h
  · intro t c f d v e t2 es h
    simp only [Token.transfer_from] at h
    split at h
    · split at h
      · exact Option.noConfusion h
      · split at h
        · simp only [Option.some.injEq, Prod.mk.injEq] at h
          exact ⟨h.2.1.symm, h.2.2.symm⟩
        · split at h
          · exact Option.noConfusion h
          · split at h
            · simp only [Option.some.injEq, Prod.mk.injEq] at h
              exact ⟨h.2.1.symm, h.2.2.symm⟩
            · simp at h
    · exact Option.noConfusion h
  · intro m c a r e m2 es h
    simp only [ResourceMarket.withdraw] at h
    split at h
    · simp only [Option.some.injEq, Prod.mk.injEq] at h
      exact ⟨h.2.1.symm, h.2.2.symm⟩
    · split at h
      · simp only [Option.some.injEq, Prod.mk.injEq] at h
        exact ⟨h.2.1.symm, h.2.2.symm⟩
      · split at h <;> simp at h

/-- Witness for C3: concrete calls hitting each of the three operations'
business-error paths, with the conclusion instantiated there. -/
theorem C3_error_paths_preserve_state_witness :
    (({ total_supply := 0, balances := [(1, 0)], allowances := [] } : Token)
        = { total_supply := 0, balances := [(1, 0)], allowances := [] }
      ∧ ([] : List PSP22Event) = [])
    ∧ (({ total_supply := 0, balances := [], allowances := [((1, 3), 2)] } : Token)
        = { total_supply := 0, balances := [], allowances := [((1, 3), 2)] }
      ∧ ([] : List PSP22Event) = [])
    ∧ ((ResourceMarket.new 0 0 0) = ResourceMarket.new 0 0 0
      ∧ ([] : List MarketEvent) = []) := by
  refine ⟨?_, ?_, ?_⟩
  · exact C3_error_paths_preserve_state.1
      { total_supply := 0, balances := [(1, 0)], allowances := [] } 1 2 5
      PSP22Error.InsufficientBalance _ [] rfl
  · exact C3_error_paths_preserve_state.2.1
      { total_supply := 0, balances := [], allowances := [((1, 3), 2)] } 3 1 2 5
      PSP22Error.InsufficientAllowance _ [] rfl
  · exact C3_error_paths_preserve_state.2.2
      (ResourceMarket.new 0 0 0) 2 50 Resource.Water
      MarketError.InsufficientResources _ [] rfl

/-- Claim C4. `transfer_from` traps (panic, embedded as `none`) when no
allowance entry exists for `(from, caller)`; when an entry exists it returns
the checked `InsufficientAllowance` if the allowance is below `value`
(regardless of any balance), and `InsufficientBalance` when the allowance
suffices but `from`'s stored balance is below `value` — the allowance is
checked before the balance. -/
theorem C4_transfer_from_check_order :
    ∀ (t : Token) (caller fro dst value : Nat),
      (mcontains t.allowances (fro, caller) = false →
        Token.transfer_from t caller fro dst value = none)
      ∧ (∀ al, mget t.allowances (fro, caller) = some al → al < value →
          Token.transfer_from t caller fro dst value
            = some (Except.error PSP22Error.InsufficientAllowance, t, []))
      ∧ (∀ al bal, mget t.allowances (fro, caller) = some al → value ≤ al →
          mget t.balances fro = some bal → bal < value →
          Token.transfer_from t caller fro dst value
            = some (Except.error PSP22Error.InsufficientBalance, t, [])) := by
  intro t caller fro dst value
  refine ⟨?_, ?_, ?_⟩
  · intro h
    simp [Token.transfer_from, h]
  · intro al hget hlt
    have hc : mcontains t.allowances (fro, caller) = true := by
      simp [mcontains, hget]
    simp [Token.transfer_from, hc, hget, hlt]
  · intro al bal hget hge hbal hlt
    have hc : mcontains t.allowances (fro, caller) = true := by
      simp [mcontains, hget]
    simp [Token.transfer_from, hc, hget, hbal, hlt, Nat.not_lt.mpr hge]

/-- Witness for C4: the three clauses at concrete states — a missing entry
traps, a small allowance yields `InsufficientAllowance` even though the
balance map is empty, and a sufficient allowance with a small balance yields
`InsufficientBalance`. -/
theorem C4_transfer_from_check_order_witness :
    Token.transfer_from { total_supply := 0, balances := [], allowances := [] } 3 1 2 5 = none
    ∧ Token.transfer_from
        { total_supply := 0, balances := [], allowances := [((1, 3), 2)] } 3 1 2 5
      = some (Except.error PSP22Error.InsufficientAllowance,
          { total_supply := 0, balances := [], allowances := [((1, 3), 2)] }, [])
    ∧ Token.transfer_from
        { total_supply := 0, balances := [(1, 2)], allowances := [((1, 3), 9)] } 3 1 2 5
      = some (Except.error PSP22Error.InsufficientBalance,
          { total_supply := 0, balances := [(1, 2)], allowances := [((1, 3), 9)] }, []) := by
  refine ⟨?_, ?_, ?_⟩
  · exact (C4_transfer_from_check_order
      { total_supply := 0, balances := [], allowances := [] } 3 1 2 5).1 rfl
  · exact (C4_transfer_from_check_order
      { total_supply := 0, balances := [], allowances := [((1, 3), 2)] } 3 1 2 5).2.1
      2 rfl (by decide)
  · exact (C4_transfer_from_check_order
      { total_supply := 0, balances := [(1, 2)], allowances := [((1, 3), 9)] } 3 1 2 5).2.2
      9 2 rfl (by decide) rfl (by decide)

/-- Claim C9. `balance_of` and `allowance` fault (trap, embedded as `none`)
whenever the queried entry is absent, and on a freshly constructed token
`balance_of` faults for every account. -/
theorem C9_queries_fault_on_missing_entry :
    (∀ (t : Token) (a : Nat), mget t.balances a = none → Token.balance_of t a = none)
    ∧ (∀ (t : Token) (o s : Nat), mget t.allowances (o, s) = none →
        Token.allowance t o s = none)
    ∧ (∀ (supply a : Nat), Token.balance_of (Token.new supply) a = none) := by
  refine ⟨fun t a h => h, fun t o s h => h, fun supply a => ?_⟩
  simp [Token.balance_of, Token.new, mget]

/-- Witness for C9: on `Token.new 1000` both queries fault at concrete
accounts. -/
theorem C9_queries_fault_on_missing_entry_witness :
    Token.balance_of (Token.new 1000) 5 = none
    ∧ Token.allowance (Token.new 1000) 1 2 = none := by
  exact ⟨C9_queries_fault_on_missing_entry.1 (Token.new 1000) 5 rfl,
    C9_queries_fault_on_missing_entry.2.1 (Token.new 1000) 1 2 rfl⟩

/-- Claim C5. Conservation from a fresh token.  `Token::new` starts with an
empty balances map and an empty allowances map, so in fact no `transfer` or
`transfer_from` can ever succeed from the constructed state (`balance_of` of
the caller traps, resp. the allowance entry is absent): the only reachable
state is the initial one, its balance sum 0 is at most `total_supply`, and
every stored balance (a natural) is at least 0 and at most `total_supply`. -/
theorem C5_conservation_from_fresh :
    ∀ (supply : Nat) (t : Token), ReachToken supply t →
      sumBalances t ≤ supply ∧ ∀ a b, mget t.balances a = some b → b ≤ supply := by
  have hinit : ∀ (supply : Nat) (t : Token), ReachToken supply t → t = Token.new supply := by
    intro supply t h
    induction h with
    | init => rfl
    | step_transfer hr hs ih =>
        rw [ih] at hs
        simp [Token.transfer, Token.new, mget] at hs
    | step_transfer_from hr hs ih =>
        rw [ih] at hs
        simp [Token.transfer_from, Token.new, mcontains, mget] at hs
  intro supply t h
  rw [hinit supply t h]
  refine ⟨by simp [sumBalances, Token.new], ?_⟩
  intro a b hb
  simp [Token.new, mget] at hb

/-- Witness for C5: the conservation bound evaluated on the freshly
constructed token with supply 1000. -/
theorem C5_conservation_from_fresh_witness :
    sumBalances (Token.new 1000) ≤ 1000
    ∧ ∀ a b, mget (Token.new 1000).balances a = some b → b ≤ 1000 :=
  C5_conservation_from_fresh 1000 (Token.new 1000) ReachToken.init

/-- Claim C7, amended.  `contribute` bumps the pool counter with plain `+=`,
which is checked, not saturating: when the sum stays within `u64` the call
succeeds, the pool level for the kind grows by exactly `amount`, and the
caller's credit becomes its old value (zero-defaulted) bumped by saturating
addition, with the `ContributionReceived` event carrying both new values;
when the pool sum exceeds `u64::MAX` the call traps instead of clamping. -/
theorem C7_contribute_checked_pool_saturating_credit :
    ∀ (m : ResourceMarket) (caller amount : Nat) (r : Resource),
      (ResourceMarket.level m r + amount ≤ u64max →
        ∃ m2, ResourceMarket.contribute m caller amount r
            = some (Except.ok (), m2,
                [MarketEvent.ContributionReceived caller amount r
                  (ResourceMarket.level m r + amount)
                  (satAdd64 ((mget m.credits caller).getD 0) amount)])
          ∧ ResourceMarket.level m2 r = ResourceMarket.level m r + amount
          ∧ mget m2.credits caller
              = some (satAdd64 ((mget m.credits caller).getD 0) amount))
      ∧ (u64max < ResourceMarket.level m r + amount →
          ResourceMarket.contribute m caller amount r = none) := by
  intro m caller amount r
  have hcred : ∀ v, (ResourceMarket.setLevel m r v).credits = m.credits := by
    intro v
    cases r <;> rfl
  have hlev : ∀ v (c : List (Nat × Nat)),
      ResourceMarket.level { ResourceMarket.setLevel m r v with credits := c } r = v := by
    intro v c
    cases r <;> rfl
  constructor
  · intro hle
    refine ⟨{ ResourceMarket.setLevel m r (ResourceMarket.level m r + amount) with
        credits := minsert m.credits caller
          (satAdd64 ((mget m.credits caller).getD 0) amount) }, ?_, ?_, ?_⟩
    · simp [ResourceMarket.contribute, checkedAdd64, hle, hcred, hlev]
    · exact hlev _ _
    · simp [mget_minsert_self]
  · intro hgt
    simp [ResourceMarket.contribute, checkedAdd64, Nat.not_le.mpr hgt]

/-- Witness for C7: contributing 10 Water to an empty pool succeeds with pool
level 10 and credit 10, and contributing 1 Food to a pool already at
`u64::MAX` traps. -/
theorem C7_contribute_checked_pool_saturating_credit_witness :
    (∃ m2, ResourceMarket.contribute (ResourceMarket.new 0 0 0) 1 10 Resource.Water
        = some (Except.ok (), m2,
            [MarketEvent.ContributionReceived 1 10 Resource.Water
              (ResourceMarket.level (ResourceMarket.new 0 0 0) Resource.Water + 10)
              (satAdd64 ((mget (ResourceMarket.new 0 0 0).credits 1).getD 0) 10)])
      ∧ ResourceMarket.level m2 Resource.Water
          = ResourceMarket.level (ResourceMarket.new 0 0 0) Resource.Water + 10
      ∧ mget m2.credits 1
          = some (satAdd64 ((mget (ResourceMarket.new 0 0 0).credits 1).getD 0) 10))
    ∧ ResourceMarket.contribute (ResourceMarket.new u64max 0 0) 1 1 Resource.Food = none := by
  refine ⟨?_, ?_⟩
  · exact (C7_contribute_checked_pool_saturating_credit
      (ResourceMarket.new 0 0 0) 1 10 Resource.Water).1 (by decide)
  · exact (C7_contribute_checked_pool_saturating_credit
      (ResourceMarket.new u64max 0 0) 1 1 Resource.Food).2 (by decide)

/-- Counterexample for C7 as stated: the claim says `contribute` always
succeeds, clamping the pool counter at the `u64` maximum on overflow; with
the Food pool already at `u64::MAX`, contributing 1 traps (checked `+=`
overflow) instead of succeeding with a clamped pool. -/
theorem C7_contribute_not_saturating_cex :
    ResourceMarket.contribute (ResourceMarket.new u64max 0 0) 2 1 Resource.Food = none := by
  rfl

/-- Claim C10. Frame property of `transfer_from`: a successful call leaves
`total_supply` unchanged, every balance entry other than `from`'s and `to`'s
unchanged, and every allowance entry other than `(from, caller)` unchanged. -/
theorem C10_transfer_from_frame :
    ∀ (t : Token) (caller fro dst value : Nat) (t2 : Token) (es : List PSP22Event),
      Token.transfer_from t caller fro dst value = some (Except.ok (), t2, es) →
        t2.total_supply = t.total_supply
        ∧ (∀ a, a ≠ fro → a ≠ dst → mget t2.balances a = mget t.balances a)
        ∧ (∀ p : Nat × Nat, p ≠ (fro, caller) → mget t2.allowances p = mget t.allowances p) := by
  intro t caller fro dst value t2 es h
  simp only [Token.transfer_from] at h
  split at h
  · split at h
    · exact Option.noConfusion h
    · split at h
      · simp at h
      · split at h
        · exact Option.noConfusion h
        · split at h
          · simp at h
          · simp only [Option.some.injEq, Prod.mk.injEq] at h
            obtain ⟨-, ht, -⟩ := h
            subst ht
            refine ⟨rfl, ?_, ?_⟩
            · intro a hf hd
              rw [mget_minsert_ne _ _ _ _ hd, mget_minsert_ne _ _ _ _ hf]
            · intro p hp
              exact mget_minsert_ne _ _ _ _ hp
  · exact Option.noConfusion h

/-- Witness for C10: a concrete successful `transfer_from` (caller 3 spends
from 1 to 2), with the frame conclusion instantiated at the untouched
account 5 and the untouched allowance pair (2, 3). -/
theorem C10_transfer_from_frame_witness :
    mget ({ total_supply := 100, balances := [(1, 7), (2, 13)],
            allowances := [((1, 3), 2)] } : Token).balances 5
      = mget ({ total_supply := 100, balances := [(1, 10), (2, 0)],
                allowances := [((1, 3), 5)] } : Token).balances 5
    ∧ mget ({ total_supply := 100, balances := [(1, 7), (2, 13)],
              allowances := [((1, 3), 2)] } : Token).allowances (2, 3)
      = mget ({ total_supply := 100, balances := [(1, 10), (2, 0)],
                allowances := [((1, 3), 5)] } : Token).allowances (2, 3) := by
  have h := C10_transfer_from_frame
    { total_supply := 100, balances := [(1, 10), (2, 0)], allowances := [((1, 3), 5)] }
    3 1 2 3
    { total_supply := 100, balances := [(1, 7), (2, 13)], allowances := [((1, 3), 2)] }
    [PSP22Event.Approval 1 3 3] rfl
  exact ⟨h.2.1 5 (by decide) (by decide), h.2.2 (2, 3) (by decide)⟩

end ContractWorkshop
